/-
  Verification of the lead-acquisition pipeline of the `My_Agency` repository
  (`app/services/search_service.py`, `app/services/ai_service.py`,
  `app/services/smart_hunt_service.py`, `app/services/guided_hunt_service.py`,
  `app/schemas/requests.py`).

  The Python code is shallowly embedded: pure functions become Lean functions;
  network calls (the search backends, the HTTP layer) become oracle parameters;
  the Python `re` library calls used by the pipeline are embedded by a small
  executable regular-expression engine with Python's leftmost / greedy /
  backtracking match order, specialised to the pattern constructs the source
  actually uses.  Strings are treated as lists of characters (Python `str`
  indexing and slicing is by code point, as is Lean's `String.toList`).
-/
import Mathlib

namespace MyAgency

/-! ### Python string primitives -/

/-- Characters treated as whitespace by the embedding.  This is the ASCII part
of Python's whitespace class (` `, `\t`, `\n`, `\r`, `\x0b`, `\x0c`), which is
what both `str.strip` and the regex class `\s` strip in the source for the
inputs the pipeline handles. -/
def pyWs (c : Char) : Bool :=
  c = ' ' || c = '\t' || c = '\n' || c = '\r' || c = '\x0b' || c = '\x0c'

/-- Python `str.strip()`: remove leading and trailing whitespace. -/
def pyStrip (s : String) : String :=
  (((s.toList.dropWhile pyWs).reverse.dropWhile pyWs).reverse).asString

/-- Python `str.lower()` restricted to ASCII case mapping (the source only
lowercases strings whose cased characters are ASCII or Arabic; Arabic has no
case). -/
def pyLower (s : String) : String :=
  (s.toList.map Char.toLower).asString

/-- Whether `a` occurs as a contiguous run inside `b` (the empty list occurs in
everything). -/
def infixOf (a : List Char) : List Char → Bool
  | [] => a.isEmpty
  | c :: t => a.isPrefixOf (c :: t) || infixOf a t

/-- Python's `a in b` on strings: `a` occurs as a contiguous substring of `b`
(the empty string is a substring of everything). -/
def pyIn (a b : String) : Bool :=
  infixOf a.toList b.toList

/-- Python `s[:n]` for a non-negative `n`. -/
def pySlice (s : String) (n : Nat) : String :=
  (s.toList.take n).asString

/-- Python `s.startswith(pre)`. -/
def pyStartsWith (s pre : String) : Bool :=
  pre.toList.isPrefixOf s.toList

/-- Python `s[n:]` for a non-negative `n`. -/
def pyDrop (s : String) (n : Nat) : String :=
  (s.toList.drop n).asString

/-! ### A small regular-expression engine

Only the constructs appearing in the source's patterns are supported:
single characters, character classes, optional groups `(?:...)?` / `X?`,
exact repetition `X{n}`, `X*`, and `X+`.  `matchAll` enumerates the possible
remainders after matching a sequence of items against a prefix of the input,
in Python's preference order (greedy, backtracking); the head of the list is
the match Python's engine commits to. -/

inductive RE where
  | chr (c : Char)
  | cls (p : Char → Bool)
  | opt (inner : List RE)
  | rep (p : Char → Bool) (n : Nat)
  | star (p : Char → Bool)
  | plus (p : Char → Bool)

/-- All remainders reachable by matching `rs` against a prefix of `s`, most
preferred first.  `fuel` bounds the recursion; every caller supplies enough
fuel for the fixed patterns of the source. -/
def matchAll : Nat → List RE → List Char → List (List Char)
  | 0, _, _ => []
  | _ + 1, [], s => [s]
  | fuel + 1, r :: rs, s =>
    match r with
    | .chr c =>
      match s with
      | [] => []
      | a :: t => if a = c then matchAll fuel rs t else []
    | .cls p =>
      match s with
      | [] => []
      | a :: t => if p a then matchAll fuel rs t else []
    | .opt inner => matchAll fuel (inner ++ rs) s ++ matchAll fuel rs s
    | .rep p n =>
      match n with
      | 0 => matchAll fuel rs s
      | n + 1 =>
        match s with
        | [] => []
        | a :: t => if p a then matchAll fuel (.rep p n :: rs) t else []
    | .star p =>
      (match s with
       | [] => []
       | a :: t => if p a then matchAll fuel (.star p :: rs) t else []) ++
      matchAll fuel rs s
    | .plus p =>
      match s with
      | [] => []
      | a :: t => if p a then matchAll fuel (.star p :: rs) t else []

/-- Fuel that is ample for every pattern of the source on input `s`. -/
def matchFuel (s : List Char) : Nat :=
  (s.length + 64) * 8

/-- One scanning pass of Python `re.findall`: attempt a match at the current
position; on success emit the matched prefix and continue after it (advancing
one character on an empty match, as Python does); on failure advance one
character. -/
def findallGo (pats : List RE) : Nat → List Char → List (List Char)
  | 0, _ => []
  | fuel + 1, s =>
    match (matchAll (matchFuel s) pats s).head? with
    | some rest =>
      let m := s.take (s.length - rest.length)
      if m.isEmpty then
        match s with
        | [] => [m]
        | _ :: t => m :: findallGo pats fuel t
      else m :: findallGo pats fuel rest
    | none =>
      match s with
      | [] => []
      | _ :: t => findallGo pats fuel t

/-- Python `re.findall(pattern, s)` for a pattern without capturing groups. -/
def findall (pats : List RE) (s : List Char) : List (List Char) :=
  findallGo pats (s.length + 1) s

/-- Python `re.sub(pattern, '', s)`: delete every non-overlapping match,
scanning left to right. -/
def subAllGo (pats : List RE) : Nat → List Char → List Char
  | 0, s => s
  | fuel + 1, s =>
    match (matchAll (matchFuel s) pats s).head? with
    | some rest =>
      if s.length - rest.length = 0 then
        match s with
        | [] => []
        | a :: t => a :: subAllGo pats fuel t
      else subAllGo pats fuel rest
    | none =>
      match s with
      | [] => []
      | a :: t => a :: subAllGo pats fuel t

/-- Python `re.sub(pattern, '', s)`. -/
def subAll (pats : List RE) (s : List Char) : List Char :=
  subAllGo pats (s.length + 1) s

/-- A run of literal characters inside a pattern. -/
def lit (s : String) : List RE :=
  s.toList.map RE.chr

/-! ### The source's regular expressions

The patterns below transcribe `SearchService.PHONE_PATTERNS_BY_COUNTRY`
(`search_service.py` lines 99-132), the email pattern (line 150), and the
display-name truncation pattern (line 173).  `\d` and `[0-9]` are embedded as
ASCII digits. -/

def reDigit (c : Char) : Bool := c.isDigit

/-- The class `[0125]`. -/
def cls0125 (c : Char) : Bool := c = '0' || c = '1' || c = '2' || c = '5'

/-- The class `[569]`. -/
def cls569 (c : Char) : Bool := c = '5' || c = '6' || c = '9'

/-- The class `[-\s]`. -/
def sepDash (c : Char) : Bool := pyWs c || c = '-'

/-- Pattern `(?:\+?2)?01[0125]\d{8}` -/
def patEg1 : List RE :=
  [.opt [.opt [.chr '+'], .chr '2']] ++ lit "01" ++ [.cls cls0125, .rep reDigit 8]

/-- Pattern `01[0125]\d{8}` -/
def patEg2 : List RE :=
  lit "01" ++ [.cls cls0125, .rep reDigit 8]

/-- Pattern `01[0125][-\s]?\d{4}[-\s]?\d{4}` -/
def patEg3 : List RE :=
  lit "01" ++ [.cls cls0125, .opt [.cls sepDash], .rep reDigit 4,
               .opt [.cls sepDash], .rep reDigit 4]

/-- Pattern `\+20\s?1[0125]\d{8}` -/
def patEg4 : List RE :=
  lit "+20" ++ [.opt [.cls pyWs]] ++ lit "1" ++ [.cls cls0125, .rep reDigit 8]

/-- Pattern `(?:\+?966)?0?5[0-9]\d{7}` -/
def patSa1 : List RE :=
  [.opt ([.opt [.chr '+']] ++ lit "966"), .opt [.chr '0'], .chr '5',
   .cls reDigit, .rep reDigit 7]

/-- Pattern `05[0-9]\d{7}` (shared by the Saudi and UAE tables) -/
def patSa2 : List RE :=
  lit "05" ++ [.cls reDigit, .rep reDigit 7]

/-- Pattern `05[0-9][-\s]?\d{3}[-\s]?\d{4}` -/
def patSa3 : List RE :=
  lit "05" ++ [.cls reDigit, .opt [.cls sepDash], .rep reDigit 3,
               .opt [.cls sepDash], .rep reDigit 4]

/-- Pattern `\+966\s?5[0-9]\d{7}` -/
def patSa4 : List RE :=
  lit "+966" ++ [.opt [.cls pyWs], .chr '5', .cls reDigit, .rep reDigit 7]

/-- Pattern `9665[0-9]\d{7}` -/
def patSa5 : List RE :=
  lit "9665" ++ [.cls reDigit, .rep reDigit 7]

/-- Pattern `(?:\+?971)?0?5[0-9]\d{7}` -/
def patAe1 : List RE :=
  [.opt ([.opt [.chr '+']] ++ lit "971"), .opt [.chr '0'], .chr '5',
   .cls reDigit, .rep reDigit 7]

/-- Pattern `\+971\s?5[0-9]\d{7}` -/
def patAe3 : List RE :=
  lit "+971" ++ [.opt [.cls pyWs], .chr '5', .cls reDigit, .rep reDigit 7]

/-- Pattern `9715[0-9]\d{7}` -/
def patAe4 : List RE :=
  lit "9715" ++ [.cls reDigit, .rep reDigit 7]

/-- Pattern `(?:\+?965)?[569]\d{7}` -/
def patKw1 : List RE :=
  [.opt ([.opt [.chr '+']] ++ lit "965"), .cls cls569, .rep reDigit 7]

/-- Pattern `[569]\d{7}` -/
def patKw2 : List RE :=
  [.cls cls569, .rep reDigit 7]

/-- Pattern `\+965\s?[569]\d{7}` -/
def patKw3 : List RE :=
  lit "+965" ++ [.opt [.cls pyWs], .cls cls569, .rep reDigit 7]

/-- The class `[a-zA-Z0-9._%+-]`. -/
def emailLocalC (c : Char) : Bool :=
  c.isAlpha || c.isDigit || c = '.' || c = '_' || c = '%' || c = '+' || c = '-'

/-- The class `[a-zA-Z0-9.-]`. -/
def emailDomC (c : Char) : Bool :=
  c.isAlpha || c.isDigit || c = '.' || c = '-'

/-- The class `[a-zA-Z]`. -/
def alphaC (c : Char) : Bool := c.isAlpha

/-- Pattern `[a-zA-Z0-9._%+-]+@[a-zA-Z0-9.-]+\.[a-zA-Z]{2,}` (line 150). -/
def emailPat : List RE :=
  [.plus emailLocalC, .chr '@', .plus emailDomC, .chr '.',
   .rep alphaC 2, .star alphaC]

/-- The class `[-|–]`. -/
def dashPipe (c : Char) : Bool := c = '-' || c = '|' || c = '–'

/-- Dot in Python `re` (anything but a newline). -/
def reDot (c : Char) : Bool := c ≠ '\n'

/-- Pattern `\s*[-|–]\s*.*`: the display-name truncation (line 173). -/
def namePat : List RE :=
  [.star pyWs, .cls dashPipe, .star pyWs, .star reDot]

namespace SearchService

/-- Table `SearchService.PHONE_PATTERNS_BY_COUNTRY` (`search_service.py` 99-132),
keys in insertion order, each value the pattern list in source order. -/
def PHONE_PATTERNS_BY_COUNTRY : List (String × List (List RE)) :=
  [("egypt", [patEg1, patEg2, patEg3, patEg4]),
   ("saudi", [patSa1, patSa2, patSa3, patSa4, patSa5]),
   ("uae", [patAe1, patSa2, patAe3, patAe4]),
   ("kuwait", [patKw1, patKw2, patKw3]),
   ("all", [patEg1, patEg2, patSa1, patSa2, patAe1, patKw1])]

/-- Table `SearchService.CUSTOMER_INTENT_KEYWORDS` (lines 134-137). -/
def CUSTOMER_INTENT_KEYWORDS : List String :=
  ["محتاج", "عايز", "ابحث عن", "مين يعرف", "دلوني على",
   "يا ريت حد", "حد يرشحلي", "حد يعرف", "تجربتكم مع", "حد جرب"]

/-- The pattern selection of `extract_leads_from_results` (lines 146-148):
the country's own patterns, followed by the catch-all set when the country is
not already `"all"` (so an unknown country key gets the catch-all set twice,
exactly as the source does). -/
def phonePatternsFor (country : String) : List (List RE) :=
  let base := ((PHONE_PATTERNS_BY_COUNTRY.lookup country).getD
    [patEg1, patEg2, patSa1, patSa2, patAe1, patKw1])
  if country ≠ "all" then base ++ [patEg1, patEg2, patSa1, patSa2, patAe1, patKw1]
  else base

end SearchService

/-- A raw search result: the dict `{"title", "link", "snippet", "source"}`
produced by the search backends.  The embedding gives every field a value
(the backends always populate all four keys, defaulting to `""`). -/
structure SearchResult where
  title : String
  link : String
  snippet : String
  src : String
deriving DecidableEq, Repr

/-- A candidate lead: the dict built at `search_service.py` lines 179-188. -/
structure Lead where
  name : String
  phone : String
  email : String
  source : String
  notes : String
  status : String
  country : String
  lead_type : String
deriving DecidableEq, Repr

namespace SearchService

/-- Python `re.sub(r'[\s\-]', '', match)` (line 160): a single-character class
substitution deletes exactly the characters of the class. -/
def cleanPhoneChars (m : List Char) : List Char :=
  m.filter (fun c => !sepDash c)

/-- The inner match loop of lines 158-163: fold the matches of one pattern
into the per-extraction accumulator, keeping a cleaned match when it has at
least 8 characters and was not seen before. -/
def addMatches : List (List Char) × List (List Char) → List (List Char) →
    List (List Char) × List (List Char)
  | st, [] => st
  | (phones, seen), m :: ms =>
    let clean := cleanPhoneChars m
    if 8 ≤ clean.length ∧ clean ∉ seen then
      addMatches (phones ++ [clean], clean :: seen) ms
    else
      addMatches (phones, seen) ms

/-- The pattern loop of lines 156-163: run every pattern's `findall` over the
text, accumulating cleaned unseen phones. -/
def collectPhones (pats : List (List RE)) (text : List Char)
    (seen : List (List Char)) : List (List Char) × List (List Char) :=
  pats.foldl (fun st pat => addMatches st (findall pat text)) ([], seen)

/-- Embedding of `SearchService._detect_phone_country` (lines 193-210). -/
def _detect_phone_country (phone : String) : String :=
  if phone = "" then "unknown"
  else
    let clean := (phone.toList.filter (fun c => !(pyWs c || c = '-' || c = '+'))).asString
    if pyStartsWith clean "20" || pyStartsWith clean "01" then "egypt"
    else if pyStartsWith clean "966" || pyStartsWith clean "05" then "saudi"
    else if pyStartsWith clean "971" || (pyStartsWith clean "05" && clean.length = 10) then "uae"
    else if pyStartsWith clean "965" then "kuwait"
    else "unknown"

/-- State threaded through the result loop of `extract_leads_from_results`:
the leads built so far, the cleaned phones already seen in this extraction
call, and the URLs that already contributed a lead in this call. -/
structure ExtSt where
  leads : List Lead
  seenPhones : List (List Char)
  seenUrls : List String

/-- The body of the result loop of `extract_leads_from_results`
(lines 152-189).  `r.title` stands for `result.get("title", ...)` because the
embedded result record always carries its four fields. -/
def extractStep (pats : List (List RE)) (include_no_phone : Bool)
    (country : String) (st : ExtSt) (r : SearchResult) : ExtSt :=
  let text := r.title.toList ++ ' ' :: r.snippet.toList
  let url := r.link
  let phones := (collectPhones pats text st.seenPhones).1
  let seen' := (collectPhones pats text st.seenPhones).2
  let emails := findall emailPat text
  let has_customer_intent := CUSTOMER_INTENT_KEYWORDS.any (fun kw => infixOf kw.toList text)
  if phones ≠ [] ∨ emails ≠ [] ∨
      (include_no_phone = true ∧ has_customer_intent = true ∧ url ∉ st.seenUrls) then
    let name := pySlice ((subAll namePat r.title.toList).asString) 60
    let detected_country :=
      if phones ≠ [] then _detect_phone_country ((phones.headD []).asString) else country
    let lead_type :=
      if phones ≠ [] then "with_phone" else if emails ≠ [] then "with_email" else "potential"
    let lead : Lead :=
      { name := name
        phone := ((phones.head?).getD []).asString
        email := ((emails.head?).getD []).asString
        source := url
        notes := pySlice r.snippet 300
        status := "new"
        country := detected_country
        lead_type := lead_type }
    ⟨st.leads ++ [lead], seen', url :: st.seenUrls⟩
  else
    ⟨st.leads, seen', st.seenUrls⟩

/-- Embedding of `SearchService.extract_leads_from_results` (lines 139-191). -/
def extract_leads_from_results (results : List SearchResult) (country : String)
    (include_no_phone : Bool := true) : List Lead :=
  (results.foldl (extractStep (phonePatternsFor country) include_no_phone country)
    ⟨[], [], []⟩).leads

end SearchService

/-! ### `AIService` (`ai_service.py`): static tables and pure query synthesis -/

/-- One entry of `AIService.COUNTRY_CONFIGS` (`ai_service.py` 294-323). -/
structure CountryConfig where
  name : String
  phone_patterns : String
  sites : String
  cities : List String
  gl : String

/-- One entry of `AIService.HUNTING_STRATEGIES` (`ai_service.py` 325-351). -/
structure StrategyConfig where
  name : String
  sites : String
  keywords : List String

namespace AIService

def egyptConfig : CountryConfig :=
  { name := "مصر"
    phone_patterns := "(\"010\" OR \"011\" OR \"012\" OR \"015\")"
    sites := "site:olx.com.eg OR site:facebook.com OR site:instagram.com"
    cities := ["القاهرة", "الإسكندرية", "الجيزة", "المنصورة", "طنطا", "أسوان",
               "الأقصر", "شرم الشيخ"]
    gl := "eg" }

def saudiConfig : CountryConfig :=
  { name := "السعودية"
    phone_patterns := "(\"05\" OR \"9665\" OR \"966\")"
    sites := "site:opensooq.com OR site:facebook.com OR site:instagram.com OR site:linkedin.com/in"
    cities := ["الرياض", "جدة", "مكة", "المدينة", "الدمام", "الخبر", "الطائف",
               "تبوك", "أبها"]
    gl := "sa" }

def uaeConfig : CountryConfig :=
  { name := "الإمارات"
    phone_patterns := "(\"050\" OR \"055\" OR \"056\" OR \"9714\")"
    sites := "site:dubizzle.com OR site:facebook.com OR site:instagram.com OR site:linkedin.com/in"
    cities := ["دبي", "أبوظبي", "الشارقة", "عجمان", "العين", "رأس الخيمة"]
    gl := "ae" }

def kuwaitConfig : CountryConfig :=
  { name := "الكويت"
    phone_patterns := "(\"965\" OR \"9\" OR \"5\" OR \"6\")"
    sites := "site:opensooq.com OR site:facebook.com OR site:instagram.com"
    cities := ["الكويت", "حولي", "الفروانية", "الأحمدي", "الجهراء"]
    gl := "kw" }

/-- Table `AIService.COUNTRY_CONFIGS`, keys in insertion order. -/
def COUNTRY_CONFIGS : List (String × CountryConfig) :=
  [("egypt", egyptConfig), ("saudi", saudiConfig), ("uae", uaeConfig),
   ("kuwait", kuwaitConfig)]

def socialMediaStrategy : StrategyConfig :=
  { name := "سوشيال ميديا"
    sites := "(site:facebook.com OR site:instagram.com OR site:twitter.com OR site:linkedin.com/in)"
    keywords := ["محتاج", "عايز", "ابحث عن", "مين يعرف", "دلوني على"] }

/-- Table `AIService.HUNTING_STRATEGIES`, keys in insertion order. -/
def HUNTING_STRATEGIES : List (String × StrategyConfig) :=
  [("social_media", socialMediaStrategy),
   ("local_platforms",
    { name := "منصات محلية"
      sites := "(site:olx.com.eg OR site:opensooq.com OR site:dubizzle.com)"
      keywords := ["للتواصل", "اتصل", "واتساب", "رقم"] }),
   ("events",
    { name := "مناسبات وأحداث"
      sites := "(site:facebook.com OR site:instagram.com)"
      keywords := ["تهاني", "تهنئة", "مبروك", "الف مبروك", "عقبال"] }),
   ("contact_pages",
    { name := "صفحات التواصل"
      sites := "(\"contact us\" OR \"اتصل بنا\" OR \"تواصل معنا\")"
      keywords := ["هاتف", "موبايل", "واتس", "للاستفسار"] }),
   ("competitor_monitor",
    { name := "مراقبة المنافسين"
      sites := "(site:facebook.com OR site:instagram.com)"
      keywords := ["تعليق", "رأيكم", "تجربتكم", "حد جرب"] })]

/-- The first pass of `AIService.detect_country` (lines 357-360): scan each
country's city list, in table order, for containment in either direction
against the raw `city` argument; first hit wins. -/
def cityScan (city : String) : Option String :=
  COUNTRY_CONFIGS.findSome? (fun e =>
    if e.2.cities.any (fun c => pyIn c city || pyIn city c) then some e.1 else none)

/-- Embedding of `AIService.detect_country` (`ai_service.py` 353-367). -/
def detect_country (city : String) : String :=
  let city_lower := pyStrip (pyLower city)
  match cityScan city with
  | some code => code
  | none =>
    if ["الرياض", "جدة", "مكة", "السعودية"].any (fun x => pyIn x city_lower) then "saudi"
    else if ["دبي", "أبوظبي", "الشارقة", "الإمارات"].any (fun x => pyIn x city_lower) then "uae"
    else if ["الكويت", "حولي"].any (fun x => pyIn x city_lower) then "kuwait"
    else "egypt"

/-- The ordered self-identification strings stripped by `_extract_service`
(`ai_service.py` line 399). -/
def servicePrefixList : List String :=
  ["أنا ", "انا ", "أعمل كـ ", "اعمل ك", "عندي ", "لدي "]

/-- The first-match-wins loop of `_extract_service` (lines 400-404): at the
first list entry the query starts with, drop it and stop; otherwise keep the
query. -/
def extractServiceGo : List String → String → String
  | [], query => query
  | p :: ps, query =>
    if pyStartsWith query p then pyDrop query p.length else extractServiceGo ps query

/-- Embedding of `AIService._extract_service` (`ai_service.py` 396-405): strip the first
matching self-identification string, then Python's `result.strip()`. -/
def _extract_service (query : String) : String :=
  pyStrip (extractServiceGo servicePrefixList query)

/-- Resolution of the optional `country` argument used by
`generate_golden_query`, `generate_fallback_queries` and `hunt_leads`:
Python's `if not country:` treats both `None` and `""` as absent. -/
def resolveCountry (city : String) : Option String → String
  | none => detect_country city
  | some c => if c = "" then detect_country city else c

/-- Embedding of `AIService.generate_golden_query` (`ai_service.py` 369-394). -/
def generate_golden_query (query city strategy : String) (country? : Option String) : String :=
  let country := resolveCountry city country?
  let country_config := (COUNTRY_CONFIGS.lookup country).getD egyptConfig
  let strategy_config := (HUNTING_STRATEGIES.lookup strategy).getD socialMediaStrategy
  let service := _extract_service query
  let customer_keywords :=
    ["محتاج " ++ service, "عايز " ++ service, "مين يعرف " ++ service,
     "دلوني على " ++ service, "ابحث عن " ++ service,
     "يا ريت حد يرشحلي " ++ service, "حد يعرف " ++ service ++ " كويس"]
  let customer_keywords_str :=
    String.intercalate " OR " ((customer_keywords.take 4).map (fun kw => "\"" ++ kw ++ "\""))
  strategy_config.sites ++ " (" ++ customer_keywords_str ++ ") \"" ++ city ++ "\" " ++
    country_config.phone_patterns ++ " -site:youtube.com -\"وظيفة\" -\"مطلوب\" -\"شركة\""

/-- Embedding of `AIService.generate_fallback_queries` (`ai_service.py` 407-422). -/
def generate_fallback_queries (query city : String) (country? : Option String) : List String :=
  let country := resolveCountry city country?
  let country_config := (COUNTRY_CONFIGS.lookup country).getD egyptConfig
  let service := _extract_service query
  ["site:facebook.com (\"محتاج " ++ service ++ "\" OR \"عايز " ++ service ++
     "\" OR \"مين يعرف " ++ service ++ "\") \"" ++ city ++ "\" " ++ country_config.phone_patterns,
   "site:facebook.com (\"دلوني على " ++ service ++ "\" OR \"يا ريت حد يرشحلي " ++
     service ++ "\") \"" ++ city ++ "\"",
   "site:instagram.com (\"محتاج " ++ service ++ "\" OR \"ابحث عن " ++ service ++
     "\") " ++ city ++ " " ++ country_config.phone_patterns,
   "\"حد جرب " ++ service ++ "\" OR \"تجربتكم مع " ++ service ++ "\" " ++ city ++
     " " ++ country_config.phone_patterns,
   "(\"محتاج " ++ service ++ " ضروري\" OR \"عايز " ++ service ++ " كويس\") " ++ city]

end AIService

/-! ### `SearchService.hunt_leads` (`search_service.py` 256-378)

Network access happens only through `search_with_country`, so the embedding
takes that call as an oracle parameter and additionally records each issued
`(query, country, num)` triple in a log, which makes "which searches were
issued" an observable of the embedding. -/

/-- The external search boundary: `search_with_country(query, country, num)`. -/
abbrev SearchOracle := String → String → Nat → List SearchResult

/-- One issued search call: query text, country, requested result count. -/
abbrev QueryLog := String × String × Nat

namespace SearchService

/-- The `phone_patterns_map` local to `hunt_leads` (lines 268-274), applied
with its `.get` default. -/
def huntPhonePatterns (country : String) : String :=
  (([("egypt", "(\"010\" OR \"011\" OR \"012\" OR \"015\")"),
     ("saudi", "(\"05\" OR \"9665\" OR \"966\")"),
     ("uae", "(\"050\" OR \"055\" OR \"9714\")"),
     ("kuwait", "(\"965\")")] : List (String × String)).lookup country).getD
    "(\"010\" OR \"011\" OR \"012\" OR \"015\")"

/-- The golden query as computed at lines 276-285.  The embedded
`generate_golden_query` is total, so the `except` arm of lines 279-282 is
unreachable; the emptiness fallback of lines 284-285 is kept. -/
def goldenQueryOf (query city strategy country : String) : String :=
  let golden := AIService.generate_golden_query query city strategy (some country)
  if golden = "" then
    "site:facebook.com \"" ++ query ++ "\" \"" ++ city ++ "\" " ++ huntPhonePatterns country
  else golden

/-- The accumulator of `hunt_leads`: `all_leads`, `seen_phones`,
`seen_emails` (lines 260-262). -/
structure HuntAcc where
  all_leads : List Lead
  seen_phones : List String
  seen_emails : List String

/-- The acceptance step repeated at lines 290-298, 319-327, 339-347 and
367-375: keep a lead with an unseen non-empty phone, else with an unseen
non-empty email when it has no phone. -/
def accLead (acc : HuntAcc) (lead : Lead) : HuntAcc :=
  if lead.phone ≠ "" ∧ lead.phone ∉ acc.seen_phones then
    ⟨acc.all_leads ++ [lead], lead.phone :: acc.seen_phones, acc.seen_emails⟩
  else if lead.email ≠ "" ∧ lead.email ∉ acc.seen_emails ∧ lead.phone = "" then
    ⟨acc.all_leads ++ [lead], acc.seen_phones, lead.email :: acc.seen_emails⟩
  else acc

/-- Fold the acceptance step over one wave's extracted leads. -/
def accumulate (acc : HuntAcc) (leads : List Lead) : HuntAcc :=
  leads.foldl accLead acc

/-- A fallback-wave loop (`for search_query in ...`): before each query the
quota is checked (`if len(all_leads) >= max_results: break`); otherwise the
query is issued for `num` results, extracted, and accumulated. -/
def runQueries (search : SearchOracle) (country : String) (num max_results : Nat) :
    List String → HuntAcc × List QueryLog → HuntAcc × List QueryLog
  | [], st => st
  | q :: qs, (acc, log) =>
    if max_results ≤ acc.all_leads.length then (acc, log)
    else
      let results := search q country num
      let leads := extract_leads_from_results results country
      runQueries search country num max_results qs
        (accumulate acc leads, log ++ [(q, country, num)])

/-- The state after the golden-query wave (lines 287-298): issue the golden
query for `max_results * 3` results, extract, and accumulate into the empty
accumulator. -/
def goldenAcc (search : SearchOracle) (query city : String) (max_results : Nat)
    (strategy country : String) : HuntAcc :=
  let golden_query := goldenQueryOf query city strategy country
  let results := search golden_query country (max_results * 3)
  accumulate ⟨[], [], []⟩ (extract_leads_from_results results country)

/-- The `phone_heavy_queries` list (lines 302-309). -/
def phoneHeavyQueries (service city phone_patterns : String) : List String :=
  ["site:facebook.com (\"محتاج " ++ service ++ "\" OR \"عايز " ++ service ++
     "\") \"" ++ city ++ "\" " ++ phone_patterns,
   "site:facebook.com (\"مين يعرف " ++ service ++ "\" OR \"دلوني على " ++ service ++
     "\") \"" ++ city ++ "\" " ++ phone_patterns,
   "site:instagram.com (\"محتاج " ++ service ++ "\" OR \"ابحث عن " ++ service ++
     "\") " ++ city ++ " " ++ phone_patterns,
   "\"يا ريت حد يرشحلي " ++ service ++ "\" OR \"حد يعرف " ++ service ++ " كويس\" " ++ city,
   "\"" ++ city ++ "\" (\"محتاج " ++ service ++ " ضروري\" OR \"عايز " ++ service ++
     " كويس\") " ++ phone_patterns,
   "\"حد جرب " ++ service ++ "\" OR \"تجربتكم مع " ++ service ++ "\" " ++ city ++
     " " ++ phone_patterns]

/-- The `generic_queries` list (lines 353-359). -/
def genericQueries (service city country_name phone_patterns : String) : List String :=
  ["\"محتاج " ++ service ++ "\" " ++ country_name ++ " " ++ phone_patterns,
   "\"عايز " ++ service ++ "\" " ++ city ++ " " ++ phone_patterns,
   "\"مين يعرف " ++ service ++ " كويس\" " ++ city,
   "\"ابحث عن " ++ service ++ "\" " ++ city ++ " " ++ phone_patterns,
   "\"حد يرشحلي " ++ service ++ "\" " ++ country_name]

/-- The `country_names` map of lines 350-351 with its `.get` default. -/
def huntCountryName (country : String) : String :=
  (([("egypt", "مصر"), ("saudi", "السعودية"), ("uae", "الإمارات"),
     ("kuwait", "الكويت")] : List (String × String)).lookup country).getD "مصر"

/-- Embedding of `SearchService.hunt_leads` (lines 256-378), paired with the log of issued
search calls. -/
def hunt_leadsLog (search : SearchOracle) (query city : String) (max_results : Nat)
    (strategy : String) (country? : Option String) : List Lead × List QueryLog :=
  let country := AIService.resolveCountry city country?
  let phone_patterns := huntPhonePatterns country
  let golden_query := goldenQueryOf query city strategy country
  let acc1 := goldenAcc search query city max_results strategy country
  let log1 := [(golden_query, country, max_results * 3)]
  let service := AIService._extract_service query
  let r2 := runQueries search country max_results max_results
    (phoneHeavyQueries service city phone_patterns) (acc1, log1)
  let r3 :=
    if r2.1.all_leads.length < max_results then
      runQueries search country max_results max_results
        (AIService.generate_fallback_queries query city (some country)) r2
    else r2
  let r4 :=
    if r3.1.all_leads.length < max_results then
      runQueries search country max_results max_results
        (genericQueries service city (huntCountryName country) phone_patterns) r3
    else r3
  (r4.1.all_leads.take max_results, r4.2)

/-- Embedding of `SearchService.hunt_leads`: the returned lead list. -/
def hunt_leads (search : SearchOracle) (query city : String) (max_results : Nat)
    (strategy : String) (country? : Option String) : List Lead :=
  (hunt_leadsLog search query city max_results strategy country?).1

end SearchService

/-! ### `DuplicateChecker` (`smart_hunt_service.py` 258-354)

`get_existing_phones` / `get_existing_emails` are database reads; the
embedding takes their results as parameters, and embeds the pure filtering
loop of `filter_duplicates` over them.  A candidate dict carries only the
`phone` and `email` keys that the loop inspects explicitly; the remaining
keys ride along unchanged inside the `Lead` record. -/

namespace DuplicateChecker

/-- Embedding of `DuplicateChecker._normalize_phone` (`smart_hunt_service.py` 345-354):
delete the characters of the class `[\s\-\.\(\)]`, then drop a leading `+2`
or `002`. -/
def _normalize_phone (phone : String) : String :=
  let phone := (phone.toList.filter
    (fun c => !(pyWs c || c = '-' || c = '.' || c = '(' || c = ')'))).asString
  if pyStartsWith phone "+2" then pyDrop phone 2
  else if pyStartsWith phone "002" then pyDrop phone 3
  else phone

/-- The loop body of `filter_duplicates` (lines 319-340) acting on one
candidate: normalize and overwrite the phone when present, lowercase and
strip the email, then keep or drop against the existing and in-call sets. -/
def filterStep (existing_phones existing_emails : List String)
    (st : List Lead × List String × List String) (lead : Lead) :
    List Lead × List String × List String :=
  let (unique_leads, new_phones, new_emails) := st
  let phone := if lead.phone ≠ "" then _normalize_phone lead.phone else lead.phone
  let lead := { lead with phone := phone }
  let email := pyStrip (pyLower lead.email)
  if phone ≠ "" then
    if phone ∈ existing_phones ∨ phone ∈ new_phones then st
    else (unique_leads ++ [lead], phone :: new_phones, new_emails)
  else if email ≠ "" then
    if email ∈ existing_emails ∨ email ∈ new_emails then st
    else (unique_leads ++ [lead], new_phones, email :: new_emails)
  else st

/-- Embedding of `DuplicateChecker.filter_duplicates` (lines 309-343), with the two
database lookups supplied as the `existing_phones` / `existing_emails`
arguments. -/
def filter_duplicates (existing_phones existing_emails : List String)
    (leads : List Lead) : List Lead :=
  (leads.foldl (filterStep existing_phones existing_emails) ([], [], [])).1

/-- Modelled from the claim's words (C5), for comparison with the source's
`filter_duplicates`: a candidate with a non-empty phone is kept iff its
normalized phone is absent from the existing set and from the phones accepted
earlier in the call; a candidate with an empty phone and a non-empty
lowercased email is kept under the analogous email rule; a candidate with
neither is dropped. -/
def filterDuplicatesClaim (existing_phones existing_emails : List String)
    (leads : List Lead) : List Lead :=
  (leads.foldl (fun st lead =>
    let (unique_leads, new_phones, new_emails) := st
    if lead.phone ≠ "" then
      let phone := _normalize_phone lead.phone
      if phone ∈ existing_phones ∨ phone ∈ new_phones then st
      else (unique_leads ++ [{ lead with phone := phone }], phone :: new_phones, new_emails)
    else
      let email := pyLower lead.email
      if email ≠ "" then
        if email ∈ existing_emails ∨ email ∈ new_emails then st
        else (unique_leads ++ [lead], new_phones, email :: new_emails)
      else st) ([], [], [])).1

/-- The amended C5 rule, modelled from the corrected claim's words: the phone
rule applies exactly when the *normalized* phone is non-empty (so a phone
that normalizes to nothing falls through to the email rule), and the email
rule requires the lowercased, whitespace-stripped email to be non-empty. -/
def filterDuplicatesAmended (existing_phones existing_emails : List String)
    (leads : List Lead) : List Lead :=
  (leads.foldl (fun st lead =>
    let (unique_leads, new_phones, new_emails) := st
    let phone := if lead.phone ≠ "" then _normalize_phone lead.phone else ""
    let email := pyStrip (pyLower lead.email)
    if phone ≠ "" then
      if phone ∈ existing_phones ∨ phone ∈ new_phones then st
      else (unique_leads ++ [{ lead with phone := phone }], phone :: new_phones, new_emails)
    else if email ≠ "" then
      if email ∈ existing_emails ∨ email ∈ new_emails then st
      else (unique_leads ++ [{ lead with phone := phone }], new_phones, email :: new_emails)
    else st) ([], [], [])).1

end DuplicateChecker

/-! ### The requested-count clamps (C6) -/

/-- Embedding of `HuntRequest.validate_max` (`app/schemas/requests.py` 51-54):
`min(max(1, v), 50)`. -/
def HuntRequest.validate_max (v : Int) : Int :=
  min (max 1 v) 50

/-- The count clamp of `build_smart_query` (`smart_hunt_service.py` 184-197):
`min(max(count, 5), 50)`. -/
def buildSmartQueryCount (count : Int) : Int :=
  min (max count 5) 50

/-- The count clamp of the guided-hunt count step
(`guided_hunt_service.py` 95-100): `max(5, min(50, count))` applied to the
integer parsed from the digits of the response (on a parse failure the step
uses 20 and never reaches the clamp). -/
def guidedHuntCount (count : Int) : Int :=
  max 5 (min 50 count)

/-! ### The search backends (C9)

Each backend performs one blocking HTTP request inside `try/except`.  The
embedding represents the outcome of that request as a value: either an
exception, or a status code together with the already-decoded payload items.
The per-backend functions below are `search_serper` / `search_duckduckgo`
(`search_service.py` 15-87) with the network substituted by that outcome. -/

/-- Decoded payload item of the Serper response (`data["organic"]`). -/
structure SerperItem where
  title : String
  link : String
  snippet : String

/-- Decoded payload item of the DuckDuckGo response
(`data["RelatedTopics"]`); `text? = none` models an item without a `"Text"`
key. -/
structure DdgItem where
  text? : Option String
  firstURL : String

/-- Outcome of one HTTP request: an exception, or a response with a status
code and its decoded items. -/
inductive HttpOutcome (α : Type) where
  | exc
  | resp (status : Nat) (items : List α)

namespace SearchService

/-- Embedding of `SearchService.search_serper` (lines 15-53): no API key, an exception, or
a non-200 status all yield `[]`; a 200 response yields the first
`max_results` organic items mapped to result dicts. -/
def search_serper (hasKey : Bool) (outcome : HttpOutcome SerperItem)
    (max_results : Nat) : List SearchResult :=
  if !hasKey then []
  else
    match outcome with
    | .exc => []
    | .resp status items =>
      if status = 200 then
        (items.take max_results).map (fun i => ⟨i.title, i.link, i.snippet, "serper"⟩)
      else []

/-- Embedding of `SearchService.search_duckduckgo` (lines 55-87): an exception or a
non-200 status yields `[]`; a 200 response yields the first `max_results`
related topics, keeping the items with a `"Text"` key. -/
def search_duckduckgo (outcome : HttpOutcome DdgItem) (max_results : Nat) :
    List SearchResult :=
  match outcome with
  | .exc => []
  | .resp status items =>
    if status = 200 then
      (items.take max_results).filterMap (fun i =>
        match i.text? with
        | some t => some ⟨pySlice t 100, i.firstURL, t, "duckduckgo"⟩
        | none => none)
    else []

/-- Embedding of `SearchService.search` (lines 89-97): Serper first, DuckDuckGo when the
Serper result is empty. -/
def search (hasKey : Bool) (serperOutcome : HttpOutcome SerperItem)
    (ddgOutcome : HttpOutcome DdgItem) (max_results : Nat) : List SearchResult :=
  let results := search_serper hasKey serperOutcome max_results
  if results.isEmpty then search_duckduckgo ddgOutcome max_results
  else results

end SearchService

/-! ### Derived predicates and concrete fixtures

The predicates below name properties of the embedded data that the theorems
establish; the fixtures are concrete backend behaviours and inputs at which
the theorems are evaluated. -/

namespace SearchService

/-- The property every collected phone satisfies: at least 8 characters, none
of them whitespace or a dash. -/
def goodPhone (p : List Char) : Prop :=
  8 ≤ p.length ∧ ∀ c ∈ p, sepDash c = false

/-- The title+snippet blob of a result contains a customer-intent phrase. -/
def hasIntentBlob (r : SearchResult) : Bool :=
  CUSTOMER_INTENT_KEYWORDS.any (fun kw => infixOf kw.toList (r.title.toList ++ ' ' :: r.snippet.toList))

/-- The per-lead facts of C3, relative to the result set `S` a lead was
extracted from. -/
def LeadOk (S : List SearchResult) (inc : Bool) (l : Lead) : Prop :=
  (l.phone ≠ "" → 8 ≤ l.phone.length ∧ ∀ c ∈ l.phone.toList, sepDash c = false) ∧
  l.lead_type = (if l.phone ≠ "" then "with_phone"
    else if l.email ≠ "" then "with_email" else "potential") ∧
  (l.phone = "" ∧ l.email = "" →
    inc = true ∧ ∃ r ∈ S, l.source = r.link ∧ hasIntentBlob r = true)

/-- Invariant carried through the result loop of
`extract_leads_from_results`. -/
def ExtInv (S : List SearchResult) (inc : Bool) (st : ExtSt) : Prop :=
  (∀ l ∈ st.leads, LeadOk S inc l) ∧
  (∀ l ∈ st.leads, l.source ∈ st.seenUrls) ∧
  List.Pairwise (fun a b => (b.phone = "" ∧ b.email = "") → a.source ≠ b.source) st.leads

/-- The pairwise distinctness guaranteed by `seen_phones` / `seen_emails`:
two accepted leads never carry the same non-empty phone string, and two
accepted phone-less leads never carry the same email string. -/
def PhoneEmailDistinct (a b : Lead) : Prop :=
  (a.phone ≠ "" → b.phone ≠ "" → a.phone ≠ b.phone) ∧
  (a.phone = "" → b.phone = "" → a.email ≠ b.email)

/-- Invariant of the accumulator of `hunt_leads`. -/
def HuntInv (acc : HuntAcc) : Prop :=
  List.Pairwise PhoneEmailDistinct acc.all_leads ∧
  (∀ l ∈ acc.all_leads, l.phone ≠ "" → l.phone ∈ acc.seen_phones) ∧
  (∀ l ∈ acc.all_leads, l.phone = "" → l.email ∈ acc.seen_emails)

/-- The invariant that yields C10: every accepted lead has a contact signal
and is not tagged `"potential"`. -/
def HuntInv10 (acc : HuntAcc) : Prop :=
  ∀ l ∈ acc.all_leads, (l.phone ≠ "" ∨ l.email ≠ "") ∧ l.lead_type ≠ "potential"

/-- First search result of the C2 counterexample run: its blob carries the
phone written with the international `+2` prefix. -/
def c2Res1 : SearchResult := ⟨"عميل", "http://a", "اتصل +201012345678", "serper"⟩

/-- Second search result of the C2 counterexample run: the same subscriber
number without the prefix. -/
def c2Res2 : SearchResult := ⟨"عميل2", "http://b", "اتصل 01012345678", "serper"⟩

/-- A search backend that answers the golden-query wave (recognisable by its
`max_results * 3 = 6` requested count) with `c2Res1` and every fallback query
with `c2Res2`. -/
def c2Oracle : SearchOracle := fun _ _ num => if num = 6 then [c2Res1] else [c2Res2]

/-- A backend for the C10 witness: every query returns one result whose blob
carries an Egyptian phone number. -/
def c10Oracle : SearchOracle :=
  fun _ _ _ => [⟨"عميل", "http://a", "اتصل 01012345678", "serper"⟩]

/-- A backend for the C4 witness: the golden query alone already yields a
lead that meets the quota of 1. -/
def c4Oracle : SearchOracle :=
  fun _ _ _ => [⟨"عميل", "http://a", "اتصل 01012345678", "serper"⟩]

end SearchService

namespace DuplicateChecker

/-- The two candidates refuting C5: a candidate whose non-empty phone `"+2"`
normalizes to the empty string, and a phone-less candidate whose email is a
single space. -/
def c5Leads : List Lead :=
  [⟨"n1", "+2", "", "s1", "", "new", "egypt", "with_phone"⟩,
   ⟨"n2", "", " ", "s2", "", "new", "egypt", "with_email"⟩]

end DuplicateChecker

/-! ### Engine lemmas -/

/-- Matching only consumes input: every remainder enumerated by `matchAll` is
at most as long as the input. -/
theorem matchAll_length_le (fuel : Nat) :
    ∀ (rs : List RE) (s t : List Char), t ∈ matchAll fuel rs s → t.length ≤ s.length := by
  induction fuel with
  | zero => intro rs s t h; simp [matchAll] at h
  | succ fuel ih =>
    intro rs s t h
    match rs with
    | [] =>
      simp only [matchAll, List.mem_singleton] at h
      simp [h]
    | r :: rs =>
      cases r with
      | chr c =>
        cases s with
        | nil => simp [matchAll] at h
        | cons a tl =>
          simp only [matchAll] at h
          split at h
          · have := ih rs tl t h
            simp only [List.length_cons]; omega
          · simp at h
      | cls p =>
        cases s with
        | nil => simp [matchAll] at h
        | cons a tl =>
          simp only [matchAll] at h
          split at h
          · have := ih rs tl t h
            simp only [List.length_cons]; omega
          · simp at h
      | opt inner =>
        simp only [matchAll, List.mem_append] at h
        rcases h with h | h
        · exact ih _ s t h
        · exact ih _ s t h
      | rep p n =>
        cases n with
        | zero => exact ih rs s t (by simpa [matchAll] using h)
        | succ n =>
          cases s with
          | nil => simp [matchAll] at h
          | cons a tl =>
            simp only [matchAll] at h
            split at h
            · have := ih (.rep p n :: rs) tl t h
              simp only [List.length_cons]; omega
            · simp at h
      | star p =>
        cases s with
        | nil =>
          simp only [matchAll, List.nil_append] at h
          exact ih rs [] t h
        | cons a tl =>
          simp only [matchAll, List.mem_append] at h
          rcases h with h | h
          · split at h
            · have := ih (.star p :: rs) tl t h
              simp only [List.length_cons]; omega
            · simp at h
          · exact ih rs (a :: tl) t h
      | plus p =>
        cases s with
        | nil => simp [matchAll] at h
        | cons a tl =>
          simp only [matchAll] at h
          split at h
          · have := ih (.star p :: rs) tl t h
            simp only [List.length_cons]; omega
          · simp at h

/-- A pattern starting with a `+`-item consumes at least one character. -/
theorem matchAll_plus_lt (fuel : Nat) (p : Char → Bool) (rs : List RE)
    (s t : List Char) (h : t ∈ matchAll fuel (.plus p :: rs) s) :
    t.length < s.length := by
  cases fuel with
  | zero => simp [matchAll] at h
  | succ fuel =>
    cases s with
    | nil => simp [matchAll] at h
    | cons a tl =>
      simp only [matchAll] at h
      split at h
      · have := matchAll_length_le fuel (.star p :: rs) tl t h
        simp only [List.length_cons]; omega
      · simp at h

/-- If every successful match of a pattern consumes at least one character,
everything `findallGo` emits is non-empty. -/
theorem findallGo_ne_nil (pats : List RE)
    (hp : ∀ fuel s t, t ∈ matchAll fuel pats s → t.length < s.length) :
    ∀ (fuel : Nat) (s m : List Char), m ∈ findallGo pats fuel s → m ≠ [] := by
  intro fuel
  induction fuel with
  | zero => intro s m hm; simp [findallGo] at hm
  | succ fuel ih =>
    intro s m hm
    simp only [findallGo] at hm
    split at hm
    case h_1 rest heq =>
      have hmem : rest ∈ matchAll (matchFuel s) pats s :=
        List.mem_of_mem_head? (by simp [heq])
      have hlt := hp _ _ _ hmem
      have htk : s.take (s.length - rest.length) ≠ [] := by
        rw [Ne, List.take_eq_nil_iff]
        push_neg
        constructor
        · omega
        · intro hs; subst hs; simp at hlt
      rw [if_neg (by simpa [List.isEmpty_iff] using htk)] at hm
      rcases List.mem_cons.mp hm with rfl | hm
      · exact htk
      · exact ih rest m hm
    case h_2 =>
      cases s with
      | nil => simp at hm
      | cons a tl => exact ih tl m hm

/-- Every match of the email pattern is non-empty. -/
theorem findall_email_ne_nil (s m : List Char) (h : m ∈ findall emailPat s) :
    m ≠ [] :=
  findallGo_ne_nil emailPat
    (fun fuel s t ht => matchAll_plus_lt fuel emailLocalC _ s t ht) _ s m h

namespace SearchService

theorem goodPhone_cleanPhoneChars (m : List Char) (h : 8 ≤ (cleanPhoneChars m).length) :
    goodPhone (cleanPhoneChars m) := by
  refine ⟨h, fun c hc => ?_⟩
  have := (List.mem_filter.mp hc).2
  simpa using this

theorem addMatches_goodPhone (ms : List (List Char)) :
    ∀ (st : List (List Char) × List (List Char)),
      (∀ p ∈ st.1, goodPhone p) → ∀ p ∈ (addMatches st ms).1, goodPhone p := by
  induction ms with
  | nil => intro st h; simpa [addMatches] using h
  | cons m ms ih =>
    intro st h
    obtain ⟨phones, seen⟩ := st
    simp only [addMatches]
    split
    case isTrue hg =>
      refine ih _ (fun p hp => ?_)
      rcases List.mem_append.mp hp with hp | hp
      · exact h p hp
      · rcases List.mem_singleton.mp hp with rfl
        exact goodPhone_cleanPhoneChars m hg.1
    case isFalse =>
      exact ih _ h

theorem collectPhones_goodPhone (pats : List (List RE)) (text : List Char)
    (seen : List (List Char)) :
    ∀ p ∈ (collectPhones pats text seen).1, goodPhone p := by
  unfold collectPhones
  have key : ∀ (ps : List (List RE)) (st : List (List Char) × List (List Char)),
      (∀ p ∈ st.1, goodPhone p) →
      ∀ p ∈ (ps.foldl (fun st pat => addMatches st (findall pat text)) st).1, goodPhone p := by
    intro ps
    induction ps with
    | nil => intro st h; simpa using h
    | cons pat ps ih =>
      intro st h
      exact ih _ (addMatches_goodPhone _ st h)
  exact key pats ([], seen) (by simp)

end SearchService

@[simp] theorem asString_nil : ([] : List Char).asString = "" := rfl

@[simp] theorem toList_asString (l : List Char) : (l.asString).toList = l := rfl

@[simp] theorem length_asString (l : List Char) : (l.asString).length = l.length := rfl

theorem asString_eq_empty_iff (l : List Char) : l.asString = "" ↔ l = [] := by
  constructor
  · intro h
    have := congrArg String.toList h
    simpa using this
  · rintro rfl; rfl

/-- The string `(L.head?.getD []).asString` (Python's `L[0] if L else ""`) is non-empty
exactly when `L` has a (non-empty) first element. -/
theorem headD_asString_ne_iff (L : List (List Char)) (hne : ∀ x ∈ L, x ≠ []) :
    ((L.head?.getD []).asString ≠ "") ↔ L ≠ [] := by
  cases L with
  | nil => simp
  | cons x xs =>
    have hx := hne x (List.mem_cons_self x xs)
    simp [asString_eq_empty_iff, hx]

namespace SearchService

/-- The `lead_type` computed from the match lists agrees with the
discriminant read back from the built `phone` / `email` fields. -/
theorem leadType_agrees (phones emails : List (List Char))
    (hph : ∀ p ∈ phones, goodPhone p) (hem : ∀ e ∈ emails, e ≠ []) :
    (if phones ≠ [] then "with_phone"
       else if emails ≠ [] then "with_email" else "potential") =
    (if (phones.head?.getD []).asString ≠ "" then "with_phone"
       else if (emails.head?.getD []).asString ≠ "" then "with_email" else "potential") := by
  have hp := headD_asString_ne_iff phones (fun x hx => by
    have := (hph x hx).1
    intro hc; subst hc; simp at this)
  have he := headD_asString_ne_iff emails hem
  by_cases h1 : phones = []
  · subst h1
    by_cases h2 : emails = []
    · subst h2; simp
    · simp [h2, he.mpr h2]
  · simp [h1, hp.mpr h1]

theorem extractStep_inv (pats : List (List RE)) (inc : Bool) (country : String)
    (S : List SearchResult) (r : SearchResult) (hr : r ∈ S) (st : ExtSt)
    (h : ExtInv S inc st) : ExtInv S inc (extractStep pats inc country st r) := by
  obtain ⟨hok, hsrc, hpw⟩ := h
  simp only [extractStep]
  split
  case isFalse => exact ⟨hok, hsrc, hpw⟩
  case isTrue hcond =>
    have hph_good : ∀ p ∈ (collectPhones pats (r.title.toList ++ ' ' :: r.snippet.toList) st.seenPhones).1,
        goodPhone p := collectPhones_goodPhone _ _ _
    have hem_ne : ∀ e ∈ findall emailPat (r.title.toList ++ ' ' :: r.snippet.toList), e ≠ [] :=
      fun e he => findall_email_ne_nil _ e he
    have hph_ne : ∀ p ∈ (collectPhones pats (r.title.toList ++ ' ' :: r.snippet.toList) st.seenPhones).1,
        p ≠ [] := fun p hp => by
      have := (hph_good p hp).1
      intro hc; subst hc; simp at this
    have phone_ne_iff := headD_asString_ne_iff _ hph_ne
    have email_ne_iff := headD_asString_ne_iff _ hem_ne
    refine ⟨?_, ?_, ?_⟩
    · intro l hl
      rcases List.mem_append.mp hl with hl | hl
      · exact hok l hl
      · rcases List.mem_singleton.mp hl with rfl
        refine ⟨?_, ?_, ?_⟩
        · -- phone shape
          intro hne
          rcases hL : (collectPhones pats (r.title.toList ++ ' ' :: r.snippet.toList) st.seenPhones).1 with
            _ | ⟨p, ps⟩
          · simp only [hL] at hne; simp at hne
          · have hgp := hph_good p (by rw [hL]; exact List.mem_cons_self p ps)
            simp only [hL, List.head?_cons, Option.getD_some]
            simpa using hgp
        · -- lead_type discriminant
          exact leadType_agrees _ _ hph_good hem_ne
        · -- a contact-less lead needed the include-potential disjunct
          rintro ⟨hp0, he0⟩
          have hpnil := not_not.mp (phone_ne_iff.not.mp (by simpa using hp0))
          have henil := not_not.mp (email_ne_iff.not.mp (by simpa using he0))
          rcases hcond with hc | hc | hc
          · exact absurd hpnil hc
          · exact absurd henil hc
          · exact ⟨hc.1, r, hr, rfl, hc.2.1⟩
    · intro l hl
      rcases List.mem_append.mp hl with hl | hl
      · exact List.mem_cons_of_mem _ (hsrc l hl)
      · rcases List.mem_singleton.mp hl with rfl
        exact List.mem_cons_self _ _
    · rw [List.pairwise_append]
      refine ⟨hpw, List.pairwise_singleton _ _, ?_⟩
      intro a ha b hb
      rcases List.mem_singleton.mp hb with rfl
      rintro ⟨hp0, he0⟩
      have hpnil := not_not.mp (phone_ne_iff.not.mp (by simpa using hp0))
      have henil := not_not.mp (email_ne_iff.not.mp (by simpa using he0))
      rcases hcond with hc | hc | hc
      · exact absurd hpnil hc
      · exact absurd henil hc
      · intro hsame
        have hmem := hsrc a ha
        rw [hsame] at hmem
        exact hc.2.2 hmem

theorem extract_fold_inv (pats : List (List RE)) (inc : Bool) (country : String)
    (S : List SearchResult) :
    ∀ (rs : List SearchResult) (st : ExtSt), (∀ r ∈ rs, r ∈ S) → ExtInv S inc st →
      ExtInv S inc (rs.foldl (extractStep pats inc country) st) := by
  intro rs
  induction rs with
  | nil => intro st _ h; simpa using h
  | cons r rs ih =>
    intro st hsub h
    simp only [List.foldl_cons]
    exact ih _ (fun x hx => hsub x (List.mem_cons_of_mem _ hx))
      (extractStep_inv pats inc country S r (hsub r (List.mem_cons_self _ _)) st h)

/-- The facts of C3, packaged over the extraction entry point. -/
theorem extract_props (results : List SearchResult) (country : String) (inc : Bool) :
    (∀ l ∈ extract_leads_from_results results country inc, LeadOk results inc l) ∧
    List.Pairwise (fun a b => (b.phone = "" ∧ b.email = "") → a.source ≠ b.source)
      (extract_leads_from_results results country inc) := by
  have h := extract_fold_inv (phonePatternsFor country) inc country results results
    ⟨[], [], []⟩ (fun r hr => hr) ⟨by simp, by simp, by simp⟩
  exact ⟨h.1, h.2.2⟩

/-- A lead extracted with `lead_type = "potential"` carries no phone and no
email. -/
theorem extract_potential_empty (results : List SearchResult) (country : String)
    (inc : Bool) :
    ∀ l ∈ extract_leads_from_results results country inc,
      l.lead_type = "potential" → l.phone = "" ∧ l.email = "" := by
  intro l hl hpot
  have hok := (extract_props results country inc).1 l hl
  have htype := hok.2.1
  by_cases hp : l.phone = ""
  · refine ⟨hp, ?_⟩
    by_cases he : l.email = ""
    · exact he
    · rw [hpot, if_neg (by simpa using hp), if_pos he] at htype
      exact absurd htype (by decide)
  · rw [hpot, if_pos hp] at htype
    exact absurd htype (by decide)

/-! ### Invariants of the `hunt_leads` accumulation loop -/

theorem accLead_inv (acc : HuntAcc) (lead : Lead) (h : HuntInv acc) :
    HuntInv (accLead acc lead) := by
  obtain ⟨hpw, hph, hem⟩ := h
  unfold accLead
  split
  case isTrue hc =>
    refine ⟨?_, ?_, ?_⟩
    · rw [List.pairwise_append]
      refine ⟨hpw, List.pairwise_singleton _ _, ?_⟩
      intro a ha b hb
      rcases List.mem_singleton.mp hb with rfl
      constructor
      · intro hane _ heq
        exact hc.2 (heq ▸ hph a ha hane)
      · intro _ hb0
        exact absurd hb0 hc.1
    · intro l hl
      rcases List.mem_append.mp hl with hl | hl
      · exact fun hne => List.mem_cons_of_mem _ (hph l hl hne)
      · rcases List.mem_singleton.mp hl with rfl
        exact fun _ => List.mem_cons_self _ _
    · intro l hl
      rcases List.mem_append.mp hl with hl | hl
      · exact hem l hl
      · rcases List.mem_singleton.mp hl with rfl
        exact fun h0 => absurd h0 hc.1
  case isFalse =>
    split
    case isTrue hc =>
      refine ⟨?_, ?_, ?_⟩
      · rw [List.pairwise_append]
        refine ⟨hpw, List.pairwise_singleton _ _, ?_⟩
        intro a ha b hb
        rcases List.mem_singleton.mp hb with rfl
        constructor
        · intro _ hbne
          exact absurd hc.2.2 hbne
        · intro ha0 _ heq
          exact hc.2.1 (heq ▸ hem a ha ha0)
      · intro l hl
        rcases List.mem_append.mp hl with hl | hl
        · exact hph l hl
        · rcases List.mem_singleton.mp hl with rfl
          exact fun hne => absurd hc.2.2 hne
      · intro l hl
        rcases List.mem_append.mp hl with hl | hl
        · exact fun h0 => List.mem_cons_of_mem _ (hem l hl h0)
        · rcases List.mem_singleton.mp hl with rfl
          exact fun _ => List.mem_cons_self _ _
    case isFalse => exact ⟨hpw, hph, hem⟩

theorem accumulate_inv (leads : List Lead) :
    ∀ (acc : HuntAcc), HuntInv acc → HuntInv (accumulate acc leads) := by
  induction leads with
  | nil => intro acc h; simpa [accumulate] using h
  | cons l ls ih =>
    intro acc h
    have := ih (accLead acc l) (accLead_inv acc l h)
    simpa [accumulate] using this

theorem runQueries_inv (search : SearchOracle) (country : String) (num mr : Nat) :
    ∀ (qs : List String) (st : HuntAcc × List QueryLog), HuntInv st.1 →
      HuntInv (runQueries search country num mr qs st).1 := by
  intro qs
  induction qs with
  | nil => intro st h; simpa [runQueries] using h
  | cons q qs ih =>
    intro st h
    obtain ⟨acc, log⟩ := st
    simp only [runQueries]
    split
    · exact h
    · exact ih _ (accumulate_inv _ _ h)

theorem goldenAcc_inv (search : SearchOracle) (query city : String) (mr : Nat)
    (strategy country : String) :
    HuntInv (goldenAcc search query city mr strategy country) := by
  unfold goldenAcc
  exact accumulate_inv _ _ (by refine ⟨by simp, by simp, by simp⟩)

/-- Once the quota is reached, a fallback loop issues no query and changes
nothing. -/
theorem runQueries_quota (search : SearchOracle) (country : String) (num mr : Nat)
    (qs : List String) (acc : HuntAcc) (log : List QueryLog)
    (h : mr ≤ acc.all_leads.length) :
    runQueries search country num mr qs (acc, log) = (acc, log) := by
  cases qs with
  | nil => rfl
  | cons q qs => simp only [runQueries]; rw [if_pos h]

theorem accLead_inv10 (acc : HuntAcc) (lead : Lead)
    (hlead : lead.lead_type = "potential" → lead.phone = "" ∧ lead.email = "")
    (h : HuntInv10 acc) : HuntInv10 (accLead acc lead) := by
  unfold accLead
  split
  case isTrue hc =>
    intro l hl
    rcases List.mem_append.mp hl with hl | hl
    · exact h l hl
    · rcases List.mem_singleton.mp hl with rfl
      refine ⟨Or.inl hc.1, fun hpot => hc.1 (hlead hpot).1⟩
  case isFalse =>
    split
    case isTrue hc =>
      intro l hl
      rcases List.mem_append.mp hl with hl | hl
      · exact h l hl
      · rcases List.mem_singleton.mp hl with rfl
        refine ⟨Or.inr hc.1, fun hpot => hc.1 (hlead hpot).2⟩
    case isFalse => exact h

theorem accumulate_inv10 (leads : List Lead)
    (hleads : ∀ l ∈ leads, l.lead_type = "potential" → l.phone = "" ∧ l.email = "") :
    ∀ (acc : HuntAcc), HuntInv10 acc → HuntInv10 (accumulate acc leads) := by
  induction leads with
  | nil => intro acc h; simpa [accumulate] using h
  | cons l ls ih =>
    intro acc h
    have := ih (fun x hx => hleads x (List.mem_cons_of_mem _ hx)) (accLead acc l)
      (accLead_inv10 acc l (hleads l (List.mem_cons_self _ _)) h)
    simpa [accumulate] using this

theorem runQueries_inv10 (search : SearchOracle) (country : String) (num mr : Nat) :
    ∀ (qs : List String) (st : HuntAcc × List QueryLog), HuntInv10 st.1 →
      HuntInv10 (runQueries search country num mr qs st).1 := by
  intro qs
  induction qs with
  | nil => intro st h; simpa [runQueries] using h
  | cons q qs ih =>
    intro st h
    obtain ⟨acc, log⟩ := st
    simp only [runQueries]
    split
    · exact h
    · exact ih _ (accumulate_inv10 _
        (extract_potential_empty _ _ _) _ h)

theorem goldenAcc_inv10 (search : SearchOracle) (query city : String) (mr : Nat)
    (strategy country : String) :
    HuntInv10 (goldenAcc search query city mr strategy country) := by
  unfold goldenAcc
  exact accumulate_inv10 _ (extract_potential_empty _ _ _) _ (by intro l hl; simp at hl)

end SearchService

/-! ### The claims -/

open SearchService in
/-- C1: for every call to `SearchService.hunt_leads` (over any search
backend behaviour and arguments), the length of the returned lead list is at
most `max_results`: the function returns `all_leads[:max_results]`. -/
theorem C1_hunt_leads_length_le (search : SearchOracle) (query city : String)
    (max_results : Nat) (strategy : String) (country? : Option String) :
    (hunt_leads search query city max_results strategy country?).length ≤ max_results := by
  simp only [hunt_leads, hunt_leadsLog]
  exact List.length_take_le _ _

open SearchService in
/-- C2 counterexample: `hunt_leads` deduplicates by the verbatim extracted
phone string, not by the prefix-stripping normalization; a hunt can return
two leads whose phones `"+201012345678"` and `"01012345678"` are equal after
normalization, so the claim's pairwise-distinct-normalized-phones property
fails. -/
theorem C2_counterexample :
    (hunt_leads c2Oracle "حداد" "القاهرة" 2 "social_media" (some "egypt")).map Lead.phone
      = ["+201012345678", "01012345678"] ∧
    DuplicateChecker._normalize_phone "+201012345678" =
      DuplicateChecker._normalize_phone "01012345678" ∧
    ¬ List.Pairwise (fun a b => a.phone ≠ "" → b.phone ≠ "" →
        DuplicateChecker._normalize_phone a.phone ≠ DuplicateChecker._normalize_phone b.phone)
      (hunt_leads c2Oracle "حداد" "القاهرة" 2 "social_media" (some "egypt")) := by
  refine ⟨by decide, by decide, ?_⟩
  intro hpw
  have hmap : (hunt_leads c2Oracle "حداد" "القاهرة" 2 "social_media" (some "egypt")).map Lead.phone
      = ["+201012345678", "01012345678"] := by decide
  rcases hL : hunt_leads c2Oracle "حداد" "القاهرة" 2 "social_media" (some "egypt") with
    _ | ⟨a, _ | ⟨b, rest⟩⟩ <;> rw [hL] at hmap <;> simp at hmap
  rw [hL] at hpw
  rcases List.pairwise_cons.mp hpw with ⟨hab, _⟩
  have := hab b (List.mem_cons_self _ _)
  rw [hmap.1, hmap.2.1] at this
  exact this (by decide) (by decide) (by decide)

open SearchService in
/-- C2 amended: within a single `hunt_leads` call, deduplication is by the
verbatim phone / email strings: no two returned leads carry the same
non-empty phone string, and no two returned leads without a phone carry the
same email string.  (Equality up to prefix-stripping normalization is not
enforced — see the counterexample.) -/
theorem C2_amended_hunt_pairwise_distinct (search : SearchOracle) (query city : String)
    (max_results : Nat) (strategy : String) (country? : Option String) :
    List.Pairwise PhoneEmailDistinct
      (hunt_leads search query city max_results strategy country?) := by
  simp only [hunt_leads, hunt_leadsLog]
  refine List.Pairwise.sublist (List.take_sublist _ _) ?_
  have gate : ∀ (c : Prop) (inst : Decidable c) (qs : List String)
      (st : HuntAcc × List QueryLog), HuntInv st.1 →
      HuntInv (if c then runQueries search (AIService.resolveCountry city country?)
        max_results max_results qs st else st).1 := by
    intro c inst qs st h
    split
    · exact runQueries_inv _ _ _ _ qs st h
    · exact h
  have h1 := goldenAcc_inv search query city max_results strategy
    (AIService.resolveCountry city country?)
  have h2 := runQueries_inv search (AIService.resolveCountry city country?)
    max_results max_results
    (phoneHeavyQueries (AIService._extract_service query) city
      (huntPhonePatterns (AIService.resolveCountry city country?)))
    (goldenAcc search query city max_results strategy (AIService.resolveCountry city country?),
      [(goldenQueryOf query city strategy (AIService.resolveCountry city country?),
        AIService.resolveCountry city country?, max_results * 3)]) h1
  exact (gate _ _ _ _ (gate _ _ _ _ h2)).1

open SearchService in
/-- C10: every lead returned by `hunt_leads` has a non-empty phone or a
non-empty email, and in particular no returned lead is tagged
`"potential"`: the accumulation loop only accepts leads through its phone or
email branch. -/
theorem C10_hunt_leads_contact (search : SearchOracle) (query city : String)
    (max_results : Nat) (strategy : String) (country? : Option String) :
    ∀ l ∈ hunt_leads search query city max_results strategy country?,
      (l.phone ≠ "" ∨ l.email ≠ "") ∧ l.lead_type ≠ "potential" := by
  simp only [hunt_leads, hunt_leadsLog]
  intro l hl
  have hl' := (List.take_sublist _ _).subset hl
  have gate : ∀ (c : Prop) (inst : Decidable c) (qs : List String)
      (st : HuntAcc × List QueryLog), HuntInv10 st.1 →
      HuntInv10 (if c then runQueries search (AIService.resolveCountry city country?)
        max_results max_results qs st else st).1 := by
    intro c inst qs st h
    split
    · exact runQueries_inv10 _ _ _ _ qs st h
    · exact h
  have h1 := goldenAcc_inv10 search query city max_results strategy
    (AIService.resolveCountry city country?)
  have h2 := runQueries_inv10 search (AIService.resolveCountry city country?)
    max_results max_results
    (phoneHeavyQueries (AIService._extract_service query) city
      (huntPhonePatterns (AIService.resolveCountry city country?)))
    (goldenAcc search query city max_results strategy (AIService.resolveCountry city country?),
      [(goldenQueryOf query city strategy (AIService.resolveCountry city country?),
        AIService.resolveCountry city country?, max_results * 3)]) h1
  exact (gate _ _ _ _ (gate _ _ _ _ h2)) l hl'

open SearchService in
/-- Witness for C10 at a concrete run: the returned lead is the extracted
phone lead, and the theorem instantiates on it. -/
theorem C10_witness :
    ((⟨"عميل", "01012345678", "", "http://a", "اتصل 01012345678", "new", "egypt",
        "with_phone"⟩ : Lead).phone ≠ "" ∨
      (⟨"عميل", "01012345678", "", "http://a", "اتصل 01012345678", "new", "egypt",
        "with_phone"⟩ : Lead).email ≠ "") ∧
    (⟨"عميل", "01012345678", "", "http://a", "اتصل 01012345678", "new", "egypt",
        "with_phone"⟩ : Lead).lead_type ≠ "potential" :=
  C10_hunt_leads_contact c10Oracle "حداد" "القاهرة" 1 "social_media" (some "egypt")
    ⟨"عميل", "01012345678", "", "http://a", "اتصل 01012345678", "new", "egypt", "with_phone"⟩
    (by decide)

open SearchService in
/-- C4: if the golden-query wave alone accumulates at least `max_results`
accepted leads, the issued-search log of the whole hunt is exactly the single
golden-query call: every fallback-tier query is gated by a quota check and
none is issued. -/
theorem C4_early_termination (search : SearchOracle) (query city : String)
    (max_results : Nat) (strategy : String) (country? : Option String) (country : String)
    (hc : country = AIService.resolveCountry city country?)
    (h : max_results ≤ (goldenAcc search query city max_results strategy country).all_leads.length) :
    (hunt_leadsLog search query city max_results strategy country?).2 =
      [(goldenQueryOf query city strategy country, country, max_results * 3)] := by
  subst hc
  have hq := not_lt.mpr h
  simp only [hunt_leadsLog]
  rw [runQueries_quota _ _ _ _ _ _ _ h]
  rw [if_neg hq]
  dsimp only
  rw [if_neg hq]

open SearchService in
/-- Witness for C4 at a concrete run with quota 1: the golden wave meets the
quota and the log holds exactly the golden call. -/
theorem C4_witness :
    (hunt_leadsLog c4Oracle "حداد" "القاهرة" 1 "social_media" (some "egypt")).2 =
      [(goldenQueryOf "حداد" "القاهرة" "social_media" "egypt", "egypt", 3)] :=
  C4_early_termination c4Oracle "حداد" "القاهرة" 1 "social_media" (some "egypt") "egypt"
    (by decide) (by decide)

open SearchService in
/-- C3: every candidate lead produced by `extract_leads_from_results` has a
non-empty phone, a non-empty email, or was admitted through the
include-potential rule (flag set, customer-intent phrase in the title+snippet
blob, URL not already used by an earlier lead of the same call); a non-empty
phone has no whitespace or dashes and at least 8 characters; and the
`lead_type` tag matches the phone/email discriminant. -/
theorem C3_extract_leads_shape (results : List SearchResult) (country : String)
    (inc : Bool) :
    (∀ l ∈ extract_leads_from_results results country inc,
      (l.phone ≠ "" → 8 ≤ l.phone.length ∧ ∀ c ∈ l.phone.toList, sepDash c = false) ∧
      l.lead_type = (if l.phone ≠ "" then "with_phone"
        else if l.email ≠ "" then "with_email" else "potential") ∧
      (l.phone = "" ∧ l.email = "" →
        inc = true ∧ ∃ r ∈ results, l.source = r.link ∧ hasIntentBlob r = true)) ∧
    List.Pairwise (fun a b => (b.phone = "" ∧ b.email = "") → a.source ≠ b.source)
      (extract_leads_from_results results country inc) :=
  extract_props results country inc

open SearchService in
/-- Witness for C3 on a concrete extraction: the phone lead extracted from an
Egyptian-number blob satisfies all the per-lead facts. -/
theorem C3_witness :
    ((⟨"عميل", "01012345678", "", "http://a", "اتصل 01012345678", "new", "egypt",
        "with_phone"⟩ : Lead).phone ≠ "" →
      8 ≤ (⟨"عميل", "01012345678", "", "http://a", "اتصل 01012345678", "new", "egypt",
        "with_phone"⟩ : Lead).phone.length ∧
      ∀ c ∈ (⟨"عميل", "01012345678", "", "http://a", "اتصل 01012345678", "new", "egypt",
        "with_phone"⟩ : Lead).phone.toList, sepDash c = false) ∧
    (⟨"عميل", "01012345678", "", "http://a", "اتصل 01012345678", "new", "egypt",
        "with_phone"⟩ : Lead).lead_type =
      (if (⟨"عميل", "01012345678", "", "http://a", "اتصل 01012345678", "new", "egypt",
        "with_phone"⟩ : Lead).phone ≠ "" then "with_phone"
       else if (⟨"عميل", "01012345678", "", "http://a", "اتصل 01012345678", "new", "egypt",
        "with_phone"⟩ : Lead).email ≠ "" then "with_email" else "potential") ∧
    ((⟨"عميل", "01012345678", "", "http://a", "اتصل 01012345678", "new", "egypt",
        "with_phone"⟩ : Lead).phone = "" ∧
     (⟨"عميل", "01012345678", "", "http://a", "اتصل 01012345678", "new", "egypt",
        "with_phone"⟩ : Lead).email = "" →
      true = true ∧ ∃ r ∈ [(⟨"عميل", "http://a", "اتصل 01012345678", "serper"⟩ : SearchResult)],
        (⟨"عميل", "01012345678", "", "http://a", "اتصل 01012345678", "new", "egypt",
        "with_phone"⟩ : Lead).source = r.link ∧ hasIntentBlob r = true) :=
  (C3_extract_leads_shape [⟨"عميل", "http://a", "اتصل 01012345678", "serper"⟩] "egypt" true).1
    ⟨"عميل", "01012345678", "", "http://a", "اتصل 01012345678", "new", "egypt", "with_phone"⟩
    (by decide)

/-- C5 counterexample: against empty existing sets, the claimed keep rule
admits both candidates of `c5Leads` (their normalized phone resp. lowercased
email are absent from every set), but the code drops both — a candidate whose
phone normalizes to `""` falls through to the email rule, and the email is
compared only after `.strip()`. -/
theorem C5_counterexample :
    DuplicateChecker.filter_duplicates [] [] DuplicateChecker.c5Leads = [] ∧
    (DuplicateChecker.filterDuplicatesClaim [] [] DuplicateChecker.c5Leads).length = 2 := by
  decide

/-- C5 amended: the keep rule of `filter_duplicates` is exactly the amended
one — a candidate is kept by the phone rule iff its *normalized* phone is
non-empty and absent from the existing and in-call phone sets, else by the
email rule iff its lowercased *stripped* email is non-empty and absent from
the email sets, else dropped; kept phone candidates carry the normalized
phone. -/
theorem C5_amended_filter_duplicates (existing_phones existing_emails : List String)
    (leads : List Lead) :
    DuplicateChecker.filter_duplicates existing_phones existing_emails leads =
      DuplicateChecker.filterDuplicatesAmended existing_phones existing_emails leads := by
  unfold DuplicateChecker.filter_duplicates DuplicateChecker.filterDuplicatesAmended
  congr 1
  apply List.foldl_ext
  intro st lead _
  obtain ⟨ul, np, nem⟩ := st
  simp only [DuplicateChecker.filterStep]
  by_cases hp : lead.phone = ""
  · simp [hp]
  · simp [hp]

/-- C6 counterexample: the `HuntRequest` schema validator clamps to `[1, 50]`
rather than `[5, 50]` — the count 2 passes through unchanged instead of
becoming 5. -/
theorem C6_counterexample :
    HuntRequest.validate_max 2 = 2 ∧ (2 : Int) < 5 ∧ HuntRequest.validate_max 2 ≠ 5 := by
  decide

/-- C6 amended: `build_smart_query` and the guided-hunt count step clamp the
requested count into `[5, 50]` (below 5 becomes 5, above 50 becomes 50,
in-range values pass through); the `HuntRequest` validator instead clamps
into `[1, 50]`. -/
theorem C6_amended_count_clamps (v : Int) :
    (v < 5 → buildSmartQueryCount v = 5) ∧
    (50 < v → buildSmartQueryCount v = 50) ∧
    (5 ≤ v → v ≤ 50 → buildSmartQueryCount v = v) ∧
    (v < 5 → guidedHuntCount v = 5) ∧
    (50 < v → guidedHuntCount v = 50) ∧
    (5 ≤ v → v ≤ 50 → guidedHuntCount v = v) ∧
    (v < 1 → HuntRequest.validate_max v = 1) ∧
    (50 < v → HuntRequest.validate_max v = 50) ∧
    (1 ≤ v → v ≤ 50 → HuntRequest.validate_max v = v) := by
  unfold buildSmartQueryCount guidedHuntCount HuntRequest.validate_max
  refine ⟨?_, ?_, ?_, ?_, ?_, ?_, ?_, ?_, ?_⟩ <;> intros <;> omega

/-- Witness for C6 (amended): the three clamps evaluated at concrete
out-of-range counts. -/
theorem C6_witness :
    buildSmartQueryCount 2 = 5 ∧ guidedHuntCount 60 = 50 ∧
      HuntRequest.validate_max 0 = 1 :=
  ⟨(C6_amended_count_clamps 2).1 (by decide),
   (C6_amended_count_clamps 60).2.2.2.2.1 (by decide),
   (C6_amended_count_clamps 0).2.2.2.2.2.2.1 (by decide)⟩

/-- C7: `AIService.detect_country` is a total pure function of the city
string: it always returns one of the four configured codes (never raising),
repeated calls agree, a first-pass city-table hit (containment in either
direction, table order) decides the result, and when neither the city table
nor the saudi/uae/kuwait keyword heuristics match it returns the default
`"egypt"`. -/
theorem C7_detect_country (city : String) :
    AIService.detect_country city = AIService.detect_country city ∧
    AIService.detect_country city ∈ ["egypt", "saudi", "uae", "kuwait"] ∧
    (∀ code, AIService.cityScan city = some code → AIService.detect_country city = code) ∧
    (AIService.cityScan city = none →
      ["الرياض", "جدة", "مكة", "السعودية"].any
          (fun x => pyIn x (pyStrip (pyLower city))) = true →
      AIService.detect_country city = "saudi") ∧
    (AIService.cityScan city = none →
      ["الرياض", "جدة", "مكة", "السعودية"].any
          (fun x => pyIn x (pyStrip (pyLower city))) = false →
      ["دبي", "أبوظبي", "الشارقة", "الإمارات"].any
          (fun x => pyIn x (pyStrip (pyLower city))) = true →
      AIService.detect_country city = "uae") ∧
    (AIService.cityScan city = none →
      ["الرياض", "جدة", "مكة", "السعودية"].any
          (fun x => pyIn x (pyStrip (pyLower city))) = false →
      ["دبي", "أبوظبي", "الشارقة", "الإمارات"].any
          (fun x => pyIn x (pyStrip (pyLower city))) = false →
      ["الكويت", "حولي"].any (fun x => pyIn x (pyStrip (pyLower city))) = true →
      AIService.detect_country city = "kuwait") ∧
    (AIService.cityScan city = none →
      ["الرياض", "جدة", "مكة", "السعودية"].any
          (fun x => pyIn x (pyStrip (pyLower city))) = false →
      ["دبي", "أبوظبي", "الشارقة", "الإمارات"].any
          (fun x => pyIn x (pyStrip (pyLower city))) = false →
      ["الكويت", "حولي"].any (fun x => pyIn x (pyStrip (pyLower city))) = false →
      AIService.detect_country city = "egypt") := by
  refine ⟨rfl, ?_, ?_, ?_, ?_, ?_, ?_⟩
  · cases hscan : AIService.cityScan city with
    | some code =>
      simp only [AIService.detect_country, hscan]
      obtain ⟨e, he, hfe⟩ := List.exists_of_findSome?_eq_some hscan
      have hcode : code = e.1 := by
        by_cases hc : e.2.cities.any (fun c => pyIn c city || pyIn city c) = true
        · rw [if_pos hc] at hfe; exact (Option.some_inj.mp hfe).symm
        · rw [if_neg hc] at hfe; exact absurd hfe (by simp)
      subst hcode
      simp only [AIService.COUNTRY_CONFIGS, List.mem_cons, List.not_mem_nil,
        or_false] at he
      rcases he with rfl | rfl | rfl | rfl
      · simp
      · simp
      · simp
      · simp
    | none =>
      simp only [AIService.detect_country, hscan]
      split_ifs <;> simp
  · intro code h
    simp only [AIService.detect_country, h]
  · intro h h1
    simp only [AIService.detect_country, h]
    rw [if_pos h1]
  · intro h h1 h2
    simp only [AIService.detect_country, h]
    rw [if_neg (by simp [h1]), if_pos h2]
  · intro h h1 h2 h3
    simp only [AIService.detect_country, h]
    rw [if_neg (by simp [h1]), if_neg (by simp [h2]), if_pos h3]
  · intro h h1 h2 h3
    simp only [AIService.detect_country, h]
    rw [if_neg (by simp [h1]), if_neg (by simp [h2]), if_neg (by simp [h3])]

/-- Witness for C7: Riyadh resolves through the city table to `"saudi"`. -/
theorem C7_witness : AIService.detect_country "الرياض" = "saudi" :=
  (C7_detect_country "الرياض").2.2.1 "saudi" (by decide)

/-- C8 counterexample: `" x "` starts with none of the self-identification
strings, yet `_extract_service` returns `"x"`, not the original text — the
function always strips surrounding whitespace before returning. -/
theorem C8_counterexample :
    AIService.servicePrefixList.all (fun p => !pyStartsWith " x " p) = true ∧
    AIService._extract_service " x " = "x" ∧ (" x " : String) ≠ "x" := by
  decide

/-- The first-match-wins loop agrees with `List.find?`. -/
theorem extractServiceGo_find? (ps : List String) (q : String) :
    (∀ p, ps.find? (fun x => pyStartsWith q x) = some p →
      AIService.extractServiceGo ps q = pyDrop q p.length) ∧
    (ps.find? (fun x => pyStartsWith q x) = none →
      AIService.extractServiceGo ps q = q) := by
  induction ps with
  | nil => exact ⟨fun p h => by simp at h, fun _ => rfl⟩
  | cons a as ih =>
    by_cases h : pyStartsWith q a = true
    · constructor
      · intro p hf
        rw [List.find?_cons_of_pos _ h] at hf
        rcases Option.some_inj.mp hf with rfl
        simp only [AIService.extractServiceGo]
        rw [if_pos h]
      · intro hf
        rw [List.find?_cons_of_pos _ h] at hf
        exact absurd hf (by simp)
    · have hfc := List.find?_cons_of_neg (p := fun x => pyStartsWith q x) as
        (by simpa using h)
      constructor
      · intro p hf
        rw [hfc] at hf
        simp only [AIService.extractServiceGo]
        rw [if_neg h]
        exact ih.1 p hf
      · intro hf
        rw [hfc] at hf
        simp only [AIService.extractServiceGo]
        rw [if_neg h]
        exact ih.2 hf

/-- C8 amended: `_extract_service` strips exactly the first
self-identification string the query starts with (first match in list order)
and then removes surrounding whitespace from the remainder; when no string in
the list matches, it returns the query with surrounding whitespace removed
(not necessarily the original text verbatim). -/
theorem C8_amended_extract_service (query : String) :
    (∀ p, AIService.servicePrefixList.find? (fun x => pyStartsWith query x) = some p →
      AIService._extract_service query = pyStrip (pyDrop query p.length)) ∧
    (AIService.servicePrefixList.find? (fun x => pyStartsWith query x) = none →
      AIService._extract_service query = pyStrip query) := by
  constructor
  · intro p hf
    unfold AIService._extract_service
    rw [(extractServiceGo_find? AIService.servicePrefixList query).1 p hf]
  · intro hf
    unfold AIService._extract_service
    rw [(extractServiceGo_find? AIService.servicePrefixList query).2 hf]

/-- Witness for C8 (amended), on a query that starts with the first
self-identification string. -/
theorem C8_witness :
    AIService._extract_service "أنا دكتور" = pyStrip (pyDrop "أنا دكتور" ("أنا " : String).length) :=
  (C8_amended_extract_service "أنا دكتور").1 "أنا " (by decide)

open SearchService in
/-- C9: a backend call that hits an exception or a non-200 status yields an
empty result list (never an error), and `search` tries the backends in fixed
priority order — it returns the Serper results when they are non-empty and
the DuckDuckGo results otherwise. -/
theorem C9_search_fallback (hasKey : Bool) (so : HttpOutcome SerperItem)
    (dd : HttpOutcome DdgItem) (max_results : Nat) :
    search_serper hasKey .exc max_results = [] ∧
    (∀ status items, status ≠ 200 →
      search_serper hasKey (.resp status items) max_results = []) ∧
    search_duckduckgo .exc max_results = [] ∧
    (∀ status items, status ≠ 200 →
      search_duckduckgo (.resp status items) max_results = []) ∧
    (search_serper hasKey so max_results ≠ [] →
      search hasKey so dd max_results = search_serper hasKey so max_results) ∧
    (search_serper hasKey so max_results = [] →
      search hasKey so dd max_results = search_duckduckgo dd max_results) := by
  refine ⟨?_, ?_, ?_, ?_, ?_, ?_⟩
  · unfold search_serper; cases hasKey <;> simp
  · intro status items hst
    unfold search_serper
    cases hasKey <;> simp [hst]
  · rfl
  · intro status items hst
    unfold search_duckduckgo
    simp [hst]
  · intro hne
    unfold search
    rw [if_neg (by simpa [List.isEmpty_iff] using hne)]
  · intro heq
    unfold search
    rw [if_pos (by simpa [List.isEmpty_iff] using heq)]

open SearchService in
/-- Witness for C9: a 500 Serper response yields `[]`, and the search then
returns the DuckDuckGo results. -/
theorem C9_witness :
    search_serper true (.resp 500 [⟨"t", "u", "s"⟩]) 5 = [] ∧
    search true (.resp 500 [⟨"t", "u", "s"⟩]) (.resp 200 [⟨some "text", "u"⟩]) 5 =
      search_duckduckgo (.resp 200 [⟨some "text", "u"⟩]) 5 :=
  ⟨(C9_search_fallback true (.resp 500 [⟨"t", "u", "s"⟩]) (.resp 200 [⟨some "text", "u"⟩]) 5).2.1
      500 [⟨"t", "u", "s"⟩] (by decide),
   (C9_search_fallback true (.resp 500 [⟨"t", "u", "s"⟩]) (.resp 200 [⟨some "text", "u"⟩]) 5).2.2.2.2.2
      (by decide)⟩

end MyAgency
